import Mathlib

/- Verification development for the pairwise-proto benchmarking harness.
   Shallow embedding of:
     scripts/pairwise/metrics.py      (metric extractor)
     scripts/pairwise/passes.py       (transform sequencer / registry)
     scripts/pairwise/io_utils.py     (artifact discovery)
     scripts/generator_common.py      (path derivation and freeze logic)
     scripts/pairwise/run_pairwise.py (scope filters and row assembly)
   Python ints are modelled as Int (or Nat for counts that arise as list
   counts), strings as String, dicts/files as functions into Option. -/

namespace PairwiseProto

/-- Model of one elementary operation (a pytket Command's op): the op name as
reported by the attribute fallback chain in metrics.py, and the qubit arity
(cmd.op.n_qubits). -/
structure Op where
  name : String
  nQubits : Nat
deriving DecidableEq

/-- Model of a pytket Circuit as consumed by the metric extractor: the
sequence of commands (circ.get_commands()), plus the circuit's own structural
accounting n_qubits and depth(), which compute_metrics reads off directly
without recomputing. -/
structure Circuit where
  commands : List Op
  n_qubits : Nat
  depth : Nat
deriving DecidableEq

/- ===== metrics.py ===== -/

/-- Lowercase of a string, character by character (str.lower(); the op names
involved are ASCII). -/
def lowerStr (s : String) : String := String.mk (s.data.map Char.toLower)

/-- Lowercased op name, as computed per command in _op_name_counts
(metrics.py lines 15-23: str(nm).lower() after the attribute fallbacks). -/
def lowerName (op : Op) : String := lowerStr op.name

/-- Counter update for one key: Python's Counter increments the entry for an
existing key in place and appends a fresh key at the end, so the key order of
the Counter is first-encountered order. -/
def histAdd : List (String × Nat) → String → List (String × Nat)
  | [], k => [(k, 1)]
  | (k0, v) :: t, k => if k0 = k then (k0, v + 1) :: t else (k0, v) :: histAdd t k

/-- metrics.py _op_name_counts (lines 10-24): histogram of lowercased op
names over all commands, keys in first-encountered order. -/
def op_name_counts (c : Circuit) : List (String × Nat) :=
  c.commands.foldl (fun h cmd => histAdd h (lowerName cmd)) []

/-- Comparison used by Counter.most_common: an entry precedes another when its
count is at least as large. -/
def countGE (a b : String × Nat) : Prop := b.2 ≤ a.2

instance : DecidableRel countGE := fun a b => Nat.decLe b.2 a.2

instance : IsTotal (String × Nat) countGE := ⟨fun a b => Or.symm (Nat.le_total a.2 b.2)⟩

instance : IsTrans (String × Nat) countGE := ⟨fun _ _ _ hab hbc => Nat.le_trans hbc hab⟩

/-- Counter.most_common(k): the k most frequent entries; most_common is a
stable sort, descending by count, truncated to k (heapq.nlargest over the
items is documented to agree with sorted(..., reverse=True)[:k], which is
stable, so ties keep the Counter's first-encountered key order). -/
def mostCommon (counts : List (String × Nat)) (k : Nat) : List (String × Nat) :=
  (List.insertionSort countGE counts).take k

/-- metrics.py _count_ops_by_qubits (lines 26-34): the loop counts every
command in ntot (including barrier/measure/reset) and counts in n1 and n2 the
commands whose op has qubit arity exactly 1 resp. exactly 2. -/
def count_ops_by_qubits (c : Circuit) : Nat × Nat × Nat :=
  (c.commands.length,
   c.commands.countP (fun cmd => cmd.nQubits == 1),
   c.commands.countP (fun cmd => cmd.nQubits == 2))

/-- Sum of the counter values at a given key, as in metrics.py lines 50-52
(sum(v for k, v in counts.items() if k == key)). -/
def sumValsWithKey (counts : List (String × Nat)) (key : String) : Nat :=
  (counts.filter (fun kv => kv.1 == key)).foldl (fun acc kv => acc + kv.2) 0

/-- The dictionary returned by metrics.py compute_metrics (lines 36-72).
n_ops_total_gates is a Python int difference, hence Int here. -/
structure MetricSnapshot where
  n_qubits : Nat
  depth : Nat
  n_ops_total : Nat
  n_ops_total_gates : Int
  n_ops_1q : Nat
  n_ops_2q : Nat
  n_ops_directive_barrier : Nat
  n_ops_directive_measure : Nat
  n_ops_directive_reset : Nat
  top_ops : List (String × Nat)
deriving DecidableEq

/-- metrics.py compute_metrics (lines 36-72). -/
def compute_metrics (c : Circuit) : MetricSnapshot :=
  let ntot := (count_ops_by_qubits c).1
  let n1 := (count_ops_by_qubits c).2.1
  let n2 := (count_ops_by_qubits c).2.2
  let counts := op_name_counts c
  let n_barrier := sumValsWithKey counts "barrier"
  let n_measure := sumValsWithKey counts "measure"
  let n_reset := sumValsWithKey counts "reset"
  let directives_total := n_barrier + n_measure + n_reset
  let n_total_gates_only : Int := (ntot : Int) - directives_total
  ⟨c.n_qubits, c.depth, ntot, n_total_gates_only, n1, n2,
   n_barrier, n_measure, n_reset, mostCommon counts 8⟩

/- ===== passes.py ===== -/

/-- Heap of circuit objects: Python object identities are modelled as indices
into a list of circuit values; copy() allocates a new cell at the end, and an
in-place pass application overwrites one cell. -/
abbrev Store := List Circuit

/-- Default circuit used to total the heap read (reads in the embedded
programs only ever target live handles). -/
def emptyCircuit : Circuit := ⟨[], 0, 0⟩

/-- Dereference a circuit handle. -/
def readH (s : Store) (h : Nat) : Circuit := s.getD h emptyCircuit

/-- In-place mutation of the object at handle h by a circuit transformation
(a pytket pass's apply). -/
def mutateH (s : Store) (h : Nat) (f : Circuit → Circuit) : Store :=
  s.set h (f (readH s h))

/-- circ.copy(): allocate an independent clone, returning the new store and
the fresh handle. -/
def copyAlloc (s : Store) (h : Nat) : Store × Nat :=
  (s ++ [readH s h], s.length)

/-- passes.py PASS_OBJS (lines 4-8): dict with exactly the keys RB, RR, CTM.
The three pass implementations themselves are external pytket passes
(excluded from the core), so they are parameters of the model; dict lookup
returns none (Python: raises KeyError) on any other key. -/
def PASS_OBJS (pRB pRR pCTM : Circuit → Circuit) : String → Option (Circuit → Circuit) :=
  fun name =>
    if name = "RB" then some pRB
    else if name = "RR" then some pRR
    else if name = "CTM" then some pCTM
    else none

/-- passes.py apply_sequence (lines 11-15): out = circ.copy() allocates the
clone at the fresh handle s.length (exactly copyAlloc s h); then each named
pass from the registry mutates out in place, in order; an unknown name
raises KeyError (modelled as none). Returns the resulting store and the
handle of the new circuit. -/
def apply_sequence (reg : String → Option (Circuit → Circuit))
    (s : Store) (h : Nat) (seq : List String) : Option (Store × Nat) :=
  (seq.foldlM (fun st name => (reg name).map (fun f => mutateH st s.length f))
      (s ++ [readH s h])).map (fun s2 => (s2, s.length))

/- ===== generator_common.py : canonical path derivation ===== -/

/-- generator_common.py line 23: Native = Literal["ibm_falcon","quantinuum"]. -/
inductive Native
  | ibm_falcon
  | quantinuum
deriving DecidableEq

/-- generator_common.py line 24: the seven circuit families. -/
inductive Family
  | qaoa
  | vqe_two_local
  | qft
  | ghz
  | grover
  | vbe_adder
  | randomcircuit
deriving DecidableEq

/-- String form of a native gateset, as interpolated into filenames. -/
def Native.str : Native → String
  | .ibm_falcon => "ibm_falcon"
  | .quantinuum => "quantinuum"

/-- Python f-string interpolation of an Optional[int]: None prints as the
four characters None. -/
def optStr : Option Int → String
  | none => "None"
  | some n => toString n

/-- generator_common.py file_stem (lines 116-135): family-specific stem plus
a double-underscore native suffix. -/
def file_stem (family : Family) (size : Int) (reps seed : Option Int)
    (symbolic : Bool) (native : Native) : String :=
  let tag := if symbolic then "sym" else "num"
  let core :=
    match family with
    | .qaoa => "qaoa_n" ++ toString size ++ "_r" ++ optStr reps ++ "_seed" ++ optStr seed ++ "_" ++ tag
    | .vqe_two_local => "vqe2l_n" ++ toString size ++ "_r" ++ optStr reps ++ "_" ++ tag
    | .qft => "qft_n" ++ toString size
    | .ghz => "ghz_n" ++ toString size
    | .grover => "grover_n" ++ toString size
    | .vbe_adder => "vbe_adder_n" ++ toString size
    | .randomcircuit => "random_n" ++ toString size
  core ++ "__" ++ native.str

/-- generator_common.py out_path (lines 140-143): the per-family folder
dictionary. -/
def folderName : Family → String
  | .qaoa => "qaoa"
  | .vqe_two_local => "vqe_two_local"
  | .qft => "qft"
  | .ghz => "ghz"
  | .grover => "grover"
  | .vbe_adder => "vbe_adder"
  | .randomcircuit => "randomcircuit"

/-- generator_common.py out_path (lines 137-144):
root / native / folder / (file_stem + ".tket.json"). -/
def out_path (root : String) (native : Native) (family : Family) (size : Int)
    (reps seed : Option Int) (symbolic : Bool) : String :=
  root ++ "/" ++ native.str ++ "/" ++ folderName family ++ "/" ++
    file_stem family size reps seed symbolic native ++ ".tket.json"

/-- generator_common.py GenSpec (lines 148-155). -/
structure GenSpec where
  family : Family
  native : Native
  size : Int
  reps : Option Int := none
  seed : Option Int := none
  symbolic : Bool := true
deriving DecidableEq

/-- generator_common.py line 160: keep_symbolic = spec.symbolic if
spec.family in ("qaoa","vqe_two_local") else True. -/
def keep_symbolic (s : GenSpec) : Bool :=
  if s.family = .qaoa ∨ s.family = .vqe_two_local then s.symbolic else true

/-- The canonical path derived in generate_and_freeze (line 165): it is
computed from the spec's identifying fields only — the built artifact is not
an input of the path computation. -/
def generate_path (root : String) (s : GenSpec) : String :=
  out_path root s.native s.family s.size s.reps s.seed (keep_symbolic s)

/- ===== pathlib with_suffix, shared by the freezer and discovery ===== -/

/-- Split a character list at its last dot: some (pre, suf) when the list is
pre ++ dot :: suf with suf dot-free; none when there is no dot. -/
def splitLastDot : List Char → Option (List Char × List Char)
  | [] => none
  | c :: t =>
    match splitLastDot t with
    | some (pre, suf) => some (c :: pre, suf)
    | none => if c = '.' then some ([], t) else none

/-- pathlib's PurePath.with_suffix on a file name: the current suffix is the
part from the last dot on, provided that dot is neither the first nor the
last character; it is removed (if present) and the new suffix appended. -/
def with_suffix (s : String) (nsuf : String) : String :=
  match splitLastDot s.data with
  | some (pre, suf) =>
    if pre ≠ [] ∧ suf ≠ [] then String.mk pre ++ nsuf else s ++ nsuf
  | none => s ++ nsuf

/- ===== generator_common.py : freeze logic over a file-system model ===== -/

/-- File system model: a map from path to file bytes (none = absent). -/
abbrev FS := String → Option String

/-- The two writes at the end of _freeze_json (generator_common.py lines
67-75): the canonical artifact bytes are written to path (atomically, via a
temp file renamed over the target, which on the file map is one update) and
then the metadata sidecar is written to path.with_suffix(".meta.json"). -/
def writeBoth (fs : FS) (path newJson metaJson : String) : FS :=
  fun q =>
    if q = with_suffix path ".meta.json" then some metaJson
    else if q = path then some newJson
    else fs q

/-- generator_common.py _freeze_json (lines 48-76). The sha256-of-bytes
function is external; it is a parameter hashF of the model. Returns the
resulting file system and the returned hash string. -/
def freeze_json (hashF : String → String) (fs : FS) (newJson : String)
    (path : String) (metaJson : String) (force compare : Bool) : FS × String :=
  let newHash := hashF newJson
  if (fs path).isSome && !(force || compare) then
    (fs, newHash)
  else if compare then
    match fs path with
    | some old =>
      if hashF old = newHash then (fs, newHash)
      else (writeBoth fs path newJson metaJson, newHash)
    | none => (writeBoth fs path newJson metaJson, newHash)
  else (writeBoth fs path newJson metaJson, newHash)

/- ===== io_utils.py : discovery ===== -/

/-- io_utils.py _meta_candidates (lines 14-19): first the convention keeping
the ".tket" segment, then the one dropping it. -/
def meta_candidates (p : String) : List String :=
  [with_suffix p ".meta.json", with_suffix (with_suffix p "") ".meta.json"]

/-- io_utils.py find_circuits line 24: the first candidate sidecar path that
exists, none otherwise. -/
def find_meta (fs : FS) (p : String) : Option String :=
  (meta_candidates p).find? (fun m => (fs m).isSome)

/- ===== run_pairwise.py : scope filters ===== -/

/-- The filter block of run_pairwise.py main (lines 211-233), after size,
reps, seed and the parameter-mode tag have been resolved from metadata with
filename fallback. Returns false exactly when one of the four continue
statements fires. The requested sets come from comma-split CLI strings, so
they are finite lists whose emptiness means no restriction. -/
def passes_filters (family : String) (sizeF repsF seedsF : List Int)
    (onlySym : Bool) (size : Int) (reps seed : Option Int)
    (tag : Option String) : Bool :=
  if !sizeF.isEmpty && !(sizeF.contains size) then false
  else if (family == "qaoa" || family == "vqe_two_local") && !repsF.isEmpty &&
      (match reps with | none => true | some r => !(repsF.contains r)) then false
  else if family == "qaoa" && !seedsF.isEmpty &&
      (match seed with | none => true | some v => !(seedsF.contains v)) then false
  else if onlySym && !(tag == some "sym" || tag == none) then false
  else true

/- ===== run_pairwise.py : row assembly ===== -/

/-- One ComparisonRow as assembled by row_pretty (run_pairwise.py lines
39-114), fields in PRETTY_COLS order. Numeric cells are Python ints (Int
here); the top-op histograms are kept as lists (run_pairwise JSON-encodes
them for the CSV, an external serialization step). -/
structure Row where
  timestamp : String
  gateset : String
  family : String
  size : Int
  variant : String
  passA : String
  passB : String
  direction : String
  depth_before : Int
  depth_after : Int
  depth_delta : Int
  n_ops_total_before : Int
  n_ops_total_after : Int
  n_ops_total_delta : Int
  n_ops_total_gates_before : Int
  n_ops_total_gates_after : Int
  n_ops_total_gates_delta : Int
  n_ops1_before : Int
  n_ops1_after : Int
  n_ops1_delta : Int
  n_ops2_before : Int
  n_ops2_after : Int
  n_ops2_delta : Int
  other_before : Int
  other_after : Int
  other_delta : Int
  barrier_before : Int
  barrier_after : Int
  barrier_delta : Int
  measure_before : Int
  measure_after : Int
  measure_delta : Int
  reset_before : Int
  reset_after : Int
  reset_delta : Int
  top_ops_before : List (String × Nat)
  top_ops_after : List (String × Nat)
  n_qubits_before : Int
  n_qubits_after : Int
deriving DecidableEq

/-- run_pairwise.py row_pretty (lines 39-114). The before/after dicts are
always outputs of compute_metrics, so every key the g() safe-getter reads is
present and the defaults never fire; the timestamp is an input here since
datetime.now is external. -/
def row_pretty (ts gateset family : String) (size : Int)
    (variant passA passB direction : String)
    (before after : MetricSnapshot) : Row :=
  let other_before : Int := (before.n_ops_total : Int) - ((before.n_ops_1q : Int) + before.n_ops_2q)
  let other_after : Int := (after.n_ops_total : Int) - ((after.n_ops_1q : Int) + after.n_ops_2q)
  { timestamp := ts, gateset := gateset, family := family, size := size,
    variant := variant, passA := passA, passB := passB, direction := direction,
    depth_before := before.depth, depth_after := after.depth,
    depth_delta := (after.depth : Int) - before.depth,
    n_ops_total_before := before.n_ops_total, n_ops_total_after := after.n_ops_total,
    n_ops_total_delta := (after.n_ops_total : Int) - before.n_ops_total,
    n_ops_total_gates_before := before.n_ops_total_gates,
    n_ops_total_gates_after := after.n_ops_total_gates,
    n_ops_total_gates_delta := after.n_ops_total_gates - before.n_ops_total_gates,
    n_ops1_before := before.n_ops_1q, n_ops1_after := after.n_ops_1q,
    n_ops1_delta := (after.n_ops_1q : Int) - before.n_ops_1q,
    n_ops2_before := before.n_ops_2q, n_ops2_after := after.n_ops_2q,
    n_ops2_delta := (after.n_ops_2q : Int) - before.n_ops_2q,
    other_before := other_before, other_after := other_after,
    other_delta := other_after - other_before,
    barrier_before := before.n_ops_directive_barrier,
    barrier_after := after.n_ops_directive_barrier,
    barrier_delta := (after.n_ops_directive_barrier : Int) - before.n_ops_directive_barrier,
    measure_before := before.n_ops_directive_measure,
    measure_after := after.n_ops_directive_measure,
    measure_delta := (after.n_ops_directive_measure : Int) - before.n_ops_directive_measure,
    reset_before := before.n_ops_directive_reset,
    reset_after := after.n_ops_directive_reset,
    reset_delta := (after.n_ops_directive_reset : Int) - before.n_ops_directive_reset,
    top_ops_before := before.top_ops, top_ops_after := after.top_ops,
    n_qubits_before := before.n_qubits, n_qubits_after := after.n_qubits }

/- ===== concrete instances used to instantiate the theorems ===== -/

/-- Concrete one-command circuit: a single measurement (a directive of qubit
arity 1, as pytket reports for Measure). -/
def cexCircuit : Circuit := ⟨[⟨"Measure", 1⟩], 1, 1⟩

/-- Concrete small circuit with a repeated gate name and a directive. -/
def sampleCircuit : Circuit := ⟨[⟨"H", 1⟩, ⟨"CX", 2⟩, ⟨"H", 1⟩, ⟨"Barrier", 3⟩], 2, 3⟩

/-- Concrete circuit whose operations all have arity 1 or 2 and are not
directives. -/
def gatesOnlyCircuit : Circuit := ⟨[⟨"H", 1⟩, ⟨"CX", 2⟩], 2, 2⟩

/-- Concrete store holding one live circuit at handle 0. -/
def sampleStore : Store := [gatesOnlyCircuit]

/-- Result circuit of the sample pass below. -/
def samplePassResult : Circuit := ⟨[⟨"X", 1⟩], 1, 1⟩

/-- A concrete stand-in for a mutating pytket pass: rewrites its input to a
fixed one-gate circuit (so it visibly changes the clone it is applied to). -/
def samplePass : Circuit → Circuit := fun _ => samplePassResult

/-- Concrete file system holding one frozen artifact. -/
def sampleFS : FS :=
  fun p => if p = "circuits/ibm_falcon/qft/qft_n8__ibm_falcon.tket.json" then some "OLD" else none

/-- A constant hash function (hash collisions are what mode compare keys
on, so a collision makes the no-write behaviour visible). -/
def constHash : String → String := fun _ => "h0"

/-- Concrete generator spec: non-parameterized family, symbolic flag true. -/
def specSym : GenSpec := ⟨.qft, .ibm_falcon, 8, none, none, true⟩

/-- Concrete generator spec differing from specSym only in the symbolic
flag, which keep_symbolic ignores for non-parameterized families. -/
def specNum : GenSpec := ⟨.qft, .ibm_falcon, 8, none, none, false⟩

/- ===== helper lemmas ===== -/

/-- Partition of the command count by qubit arity: arity-1, arity-2 and all
remaining commands add up to the total command count. -/
theorem countP_arity_partition (l : List Op) :
    l.countP (fun cmd => cmd.nQubits == 1) + l.countP (fun cmd => cmd.nQubits == 2) +
      l.countP (fun cmd => !(cmd.nQubits == 1) && !(cmd.nQubits == 2)) = l.length := by
  induction l with
  | nil => rfl
  | cons a t ih =>
    simp only [List.countP_cons, List.length_cons]
    by_cases e1 : a.nQubits = 1 <;> by_cases e2 : a.nQubits = 2 <;>
      simp [e1, e2] <;> omega

/- ===== C6 ===== -/

/-- C6: for every artifact, n_ops_total equals the sum of the three directive
counts and n_ops_total_gates (compute_metrics defines the gates-only total as
total minus directives), and n_ops_total counts every command including
directives. -/
theorem C6_metric_total_additivity (c : Circuit) :
    ((compute_metrics c).n_ops_total : Int) =
      ((compute_metrics c).n_ops_directive_barrier : Int) +
        (compute_metrics c).n_ops_directive_measure +
        (compute_metrics c).n_ops_directive_reset +
        (compute_metrics c).n_ops_total_gates ∧
    (compute_metrics c).n_ops_total = c.commands.length := by
  constructor
  · simp only [compute_metrics]
    push_cast
    ring
  · rfl

/- ===== C1 ===== -/

/-- C1 counterexample: for the one-command circuit consisting of a single
measurement, n_ops_total_gates is 0 (the measure directive is subtracted)
while n_ops_1q + n_ops_2q is 1 (the measure op has qubit arity 1 and is
counted by _count_ops_by_qubits), so the claimed inequality
n_ops_total_gates >= n_ops_1q + n_ops_2q fails. -/
theorem C1_metric_gates_counterexample :
    ¬ (((compute_metrics cexCircuit).n_ops_1q : Int) + (compute_metrics cexCircuit).n_ops_2q ≤
        (compute_metrics cexCircuit).n_ops_total_gates) := by
  decide

/-- C1 (amended): for every artifact, n_ops_total_gates is at least
n_ops_1q + n_ops_2q minus the directive counts, with equality exactly when
every operation has qubit arity 1 or 2. -/
theorem C1_metric_gates_amended (c : Circuit) :
    (((compute_metrics c).n_ops_1q : Int) + (compute_metrics c).n_ops_2q -
        (((compute_metrics c).n_ops_directive_barrier : Int) +
          (compute_metrics c).n_ops_directive_measure +
          (compute_metrics c).n_ops_directive_reset) ≤
      (compute_metrics c).n_ops_total_gates) ∧
    ((compute_metrics c).n_ops_total_gates =
        ((compute_metrics c).n_ops_1q : Int) + (compute_metrics c).n_ops_2q -
          (((compute_metrics c).n_ops_directive_barrier : Int) +
            (compute_metrics c).n_ops_directive_measure +
            (compute_metrics c).n_ops_directive_reset) ↔
      ∀ op ∈ c.commands, op.nQubits = 1 ∨ op.nQubits = 2) := by
  have hpart := countP_arity_partition c.commands
  simp only [compute_metrics, count_ops_by_qubits]
  constructor
  · omega
  · constructor
    · intro heq
      have hz : c.commands.countP (fun cmd => !(cmd.nQubits == 1) && !(cmd.nQubits == 2)) = 0 := by
        omega
      intro op hop
      have h2 := List.countP_eq_zero.mp hz op hop
      simp only [Bool.and_eq_true, Bool.not_eq_true', beq_eq_false_iff_ne, ne_eq, not_and,
        not_not] at h2
      exact or_iff_not_imp_left.mpr h2
    · intro hall
      have hz : c.commands.countP (fun cmd => !(cmd.nQubits == 1) && !(cmd.nQubits == 2)) = 0 := by
        refine List.countP_eq_zero.mpr ?_
        intro a ha
        simp only [Bool.and_eq_true, Bool.not_eq_true', beq_eq_false_iff_ne, ne_eq, not_and,
          not_not]
        exact or_iff_not_imp_left.mp (hall a ha)
      omega

/-- C1 amended-claim witness: a concrete circuit whose ops all have arity 1
or 2, for which the amended bound is an equality. -/
theorem C1_metric_gates_amended_witness :
    (∀ op ∈ gatesOnlyCircuit.commands, op.nQubits = 1 ∨ op.nQubits = 2) ∧
    (compute_metrics gatesOnlyCircuit).n_ops_total_gates =
      ((compute_metrics gatesOnlyCircuit).n_ops_1q : Int) +
        (compute_metrics gatesOnlyCircuit).n_ops_2q -
        (((compute_metrics gatesOnlyCircuit).n_ops_directive_barrier : Int) +
          (compute_metrics gatesOnlyCircuit).n_ops_directive_measure +
          (compute_metrics gatesOnlyCircuit).n_ops_directive_reset) :=
  ⟨by decide, (C1_metric_gates_amended gatesOnlyCircuit).2.mpr (by decide)⟩

/- ===== C10 ===== -/

/-- C10: in every assembled row, for the before group and for the after
group, n_ops1 + n_ops2 + other equals n_ops_total, and other_delta equals
other_after minus other_before. -/
theorem C10_row_accounting (ts gateset family : String) (size : Int)
    (variant passA passB direction : String) (before after : MetricSnapshot) :
    ((row_pretty ts gateset family size variant passA passB direction before after).n_ops1_before +
        (row_pretty ts gateset family size variant passA passB direction before after).n_ops2_before +
        (row_pretty ts gateset family size variant passA passB direction before after).other_before =
      (row_pretty ts gateset family size variant passA passB direction before after).n_ops_total_before) ∧
    ((row_pretty ts gateset family size variant passA passB direction before after).n_ops1_after +
        (row_pretty ts gateset family size variant passA passB direction before after).n_ops2_after +
        (row_pretty ts gateset family size variant passA passB direction before after).other_after =
      (row_pretty ts gateset family size variant passA passB direction before after).n_ops_total_after) ∧
    (row_pretty ts gateset family size variant passA passB direction before after).other_delta =
      (row_pretty ts gateset family size variant passA passB direction before after).other_after -
        (row_pretty ts gateset family size variant passA passB direction before after).other_before := by
  refine ⟨?_, ?_, ?_⟩ <;> simp only [row_pretty] <;> ring

/- ===== C5 ===== -/

/-- C5: the canonical output path derived by the generator is a function of
the identifying fields (family, native gateset, size, reps, seed, parameter
mode) alone — generate_path takes no artifact as input, and any two specs
agreeing on those fields map to the identical path string. -/
theorem C5_path_derivation (root : String) (s1 s2 : GenSpec)
    (hf : s1.family = s2.family) (hn : s1.native = s2.native)
    (hz : s1.size = s2.size) (hr : s1.reps = s2.reps) (hs : s1.seed = s2.seed)
    (hm : keep_symbolic s1 = keep_symbolic s2) :
    generate_path root s1 = generate_path root s2 := by
  unfold generate_path
  rw [hf, hn, hz, hr, hs, hm]

/-- C5 witness: two concrete specs that differ in the symbolic flag but
agree on the identifying fields (for the qft family keep_symbolic ignores
the flag) derive byte-identical paths. -/
theorem C5_path_derivation_witness :
    specSym.symbolic ≠ specNum.symbolic ∧
    keep_symbolic specSym = keep_symbolic specNum ∧
    generate_path "circuits" specSym = generate_path "circuits" specNum :=
  ⟨by decide, by decide,
   C5_path_derivation "circuits" specSym specNum rfl rfl rfl rfl rfl (by decide)⟩

/- ===== C2 ===== -/

/-- C2: freezing in mode compare against an existing file whose hash equals
the hash of the new serialization performs no write at all — the resulting
file system is the old one unchanged (so neither the artifact nor the
metadata sidecar is touched) — and the new content's hash is returned. -/
theorem C2_freeze_compare_noop (hashF : String → String) (fs : FS)
    (newJson path metaJson old : String) (hex : fs path = some old)
    (hh : hashF old = hashF newJson) :
    freeze_json hashF fs newJson path metaJson false true = (fs, hashF newJson) := by
  unfold freeze_json
  rw [hex]
  simp [hh]

/-- C2 witness: a concrete file system, with a hash function under which the
old and new bytes collide, is returned unchanged by a compare-mode freeze. -/
theorem C2_freeze_compare_noop_witness :
    sampleFS "circuits/ibm_falcon/qft/qft_n8__ibm_falcon.tket.json" = some "OLD" ∧
    constHash "OLD" = constHash "NEW" ∧
    freeze_json constHash sampleFS "NEW"
        "circuits/ibm_falcon/qft/qft_n8__ibm_falcon.tket.json" "META" false true =
      (sampleFS, constHash "NEW") :=
  ⟨rfl, rfl,
   C2_freeze_compare_noop constHash sampleFS "NEW"
     "circuits/ibm_falcon/qft/qft_n8__ibm_falcon.tket.json" "META" "OLD" rfl rfl⟩

/- ===== C3 ===== -/

/-- C3: in the engine's scope filtering, empty requested sets impose no
restriction; a non-empty reps filter (families qaoa and vqe_two_local)
excludes artifacts with absent or out-of-set reps; a non-empty seed filter
(qaoa) likewise; the symbolic-only filter admits an undetermined
parameter-mode tag (fail-open) and rejects a numeric tag. -/
theorem C3_scope_filters :
    (∀ (family : String) (size : Int) (reps seed : Option Int) (tag : Option String),
      passes_filters family [] [] [] false size reps seed tag = true) ∧
    (∀ (family : String) (sizeF repsF seedsF : List Int) (onlySym : Bool)
        (size : Int) (reps seed : Option Int) (tag : Option String),
      (family = "qaoa" ∨ family = "vqe_two_local") → repsF ≠ [] →
      (reps = none ∨ ∃ r, reps = some r ∧ r ∉ repsF) →
      passes_filters family sizeF repsF seedsF onlySym size reps seed tag = false) ∧
    (∀ (sizeF repsF seedsF : List Int) (onlySym : Bool) (size : Int)
        (reps seed : Option Int) (tag : Option String),
      seedsF ≠ [] → (seed = none ∨ ∃ v, seed = some v ∧ v ∉ seedsF) →
      passes_filters "qaoa" sizeF repsF seedsF onlySym size reps seed tag = false) ∧
    (∀ (family : String) (sizeF repsF seedsF : List Int) (size : Int) (reps seed : Option Int),
      passes_filters family sizeF repsF seedsF true size reps seed none =
        passes_filters family sizeF repsF seedsF false size reps seed none) ∧
    (∀ (family : String) (sizeF repsF seedsF : List Int) (size : Int) (reps seed : Option Int),
      passes_filters family sizeF repsF seedsF true size reps seed (some "sym") =
        passes_filters family sizeF repsF seedsF false size reps seed (some "sym")) ∧
    (∀ (family : String) (sizeF repsF seedsF : List Int) (size : Int) (reps seed : Option Int),
      passes_filters family sizeF repsF seedsF true size reps seed (some "num") = false) := by
  refine ⟨?_, ?_, ?_, ?_, ?_, ?_⟩
  · intro family size reps seed tag
    simp [passes_filters]
  · intro family sizeF repsF seedsF onlySym size reps seed tag hfam hne hmiss
    unfold passes_filters
    rcases hmiss with rfl | ⟨r, rfl, hrn⟩ <;> rcases hfam with rfl | rfl <;>
      simp_all [List.isEmpty_iff]
  · intro sizeF repsF seedsF onlySym size reps seed tag hne hmiss
    unfold passes_filters
    rcases hmiss with rfl | ⟨v, rfl, hvn⟩ <;> simp_all [List.isEmpty_iff]
  · intro family sizeF repsF seedsF size reps seed
    simp [passes_filters]
  · intro family sizeF repsF seedsF size reps seed
    simp [passes_filters]
  · intro family sizeF repsF seedsF size reps seed
    simp [passes_filters]

/-- C3 witness: concrete filter evaluations — everything passes with empty
filters; a missing reps value is excluded by a non-empty reps filter; an
out-of-set seed is excluded; an undetermined tag makes the symbolic-only
flag irrelevant; a numeric tag under symbolic-only is excluded. -/
theorem C3_scope_filters_witness :
    passes_filters "qft" [] [] [] false 8 none none none = true ∧
    passes_filters "qaoa" [] [1, 3] [] false 8 none none (some "sym") = false ∧
    passes_filters "qaoa" [] [] [11] false 8 (some 1) (some 22) (some "sym") = false ∧
    passes_filters "qaoa" [] [] [] true 8 (some 1) (some 11) none =
      passes_filters "qaoa" [] [] [] false 8 (some 1) (some 11) none ∧
    passes_filters "qaoa" [] [] [] true 8 (some 1) (some 11) (some "num") = false :=
  ⟨C3_scope_filters.1 "qft" 8 none none none,
   C3_scope_filters.2.1 "qaoa" [] [1, 3] [] false 8 none none (some "sym")
     (Or.inl rfl) (by decide) (Or.inl rfl),
   C3_scope_filters.2.2.1 [] [] [11] false 8 (some 1) (some 22) (some "sym")
     (by decide) (Or.inr ⟨22, rfl, by decide⟩),
   C3_scope_filters.2.2.2.1 "qaoa" [] [] [] 8 (some 1) (some 11),
   C3_scope_filters.2.2.2.2.2 "qaoa" [] [] [] 8 (some 1) (some 11)⟩

/- ===== C8 ===== -/

/-- A fold of in-place pass applications over a sequence containing a name
the registry does not know returns none (the KeyError propagates). -/
theorem foldlM_none_of_unknown (reg : String → Option (Circuit → Circuit)) (o : Nat) :
    ∀ (seq : List String) (st : Store), (∃ n ∈ seq, reg n = none) →
      seq.foldlM (fun st name => (reg name).map (fun f => mutateH st o f)) st = none := by
  intro seq
  induction seq with
  | nil =>
    intro st h
    simp at h
  | cons a t ih =>
    intro st h
    rw [List.foldlM_cons]
    obtain ⟨n, hn, hreg⟩ := h
    rcases List.mem_cons.mp hn with rfl | hnt
    · rw [hreg]
      rfl
    · cases ha : reg a with
      | none => rfl
      | some f =>
        simp only [Option.map_some']
        exact ih _ ⟨n, hnt, hreg⟩

/-- C8: the transformation registry is closed over exactly the three names
RB, RR and CTM (whatever the three external pass implementations are), and
applying a sequence containing any other name is a hard error (none), never
a silent skip. -/
theorem C8_registry_closed (pRB pRR pCTM : Circuit → Circuit) :
    (∀ n : String, (PASS_OBJS pRB pRR pCTM n).isSome = true ↔
      (n = "RB" ∨ n = "RR" ∨ n = "CTM")) ∧
    (∀ (s : Store) (h : Nat) (seq : List String),
      (∃ n ∈ seq, ¬(n = "RB" ∨ n = "RR" ∨ n = "CTM")) →
      apply_sequence (PASS_OBJS pRB pRR pCTM) s h seq = none) := by
  constructor
  · intro n
    unfold PASS_OBJS
    split_ifs with h1 h2 h3
    · simp [h1]
    · simp [h2]
    · simp [h3]
    · simp [h1, h2, h3]
  · intro s h seq hex
    obtain ⟨n, hn, hbad⟩ := hex
    have hnone : PASS_OBJS pRB pRR pCTM n = none := by
      unfold PASS_OBJS
      split_ifs with h1 h2 h3
      · exact absurd (Or.inl h1) hbad
      · exact absurd (Or.inr (Or.inl h2)) hbad
      · exact absurd (Or.inr (Or.inr h3)) hbad
      · rfl
    unfold apply_sequence
    rw [foldlM_none_of_unknown (PASS_OBJS pRB pRR pCTM) s.length seq (s ++ [readH s h])
      ⟨n, hn, hnone⟩]
    rfl

/-- C8 witness: a concrete run whose second pass name XX is unknown fails
as a whole. -/
theorem C8_registry_closed_witness :
    (∃ n ∈ ["RB", "XX"], ¬(n = "RB" ∨ n = "RR" ∨ n = "CTM")) ∧
    apply_sequence (PASS_OBJS samplePass samplePass samplePass) sampleStore 0 ["RB", "XX"] = none :=
  ⟨by decide,
   (C8_registry_closed samplePass samplePass samplePass).2 sampleStore 0 ["RB", "XX"] (by decide)⟩

/- ===== C4 ===== -/

/-- Reading an untouched handle after an in-place mutation of another
handle gives the original circuit. -/
theorem readH_mutateH_ne (s : Store) (o i : Nat) (f : Circuit → Circuit) (hio : i ≠ o) :
    readH (mutateH s o f) i = readH s i := by
  unfold readH mutateH
  rw [List.getD_eq_getElem?_getD, List.getD_eq_getElem?_getD,
    List.getElem?_set_ne (Ne.symm hio)]

/-- Frame property of the pass-application fold: every handle other than the
mutated one keeps its circuit. -/
theorem foldlM_mutate_frame (reg : String → Option (Circuit → Circuit)) (o i : Nat)
    (hio : i ≠ o) :
    ∀ (seq : List String) (st st2 : Store),
      seq.foldlM (fun st name => (reg name).map (fun f => mutateH st o f)) st = some st2 →
      readH st2 i = readH st i := by
  intro seq
  induction seq with
  | nil =>
    intro st st2 hfold
    simp only [List.foldlM_nil] at hfold
    cases hfold
    rfl
  | cons a t ih =>
    intro st st2 hfold
    rw [List.foldlM_cons] at hfold
    cases ha : reg a with
    | none =>
      rw [ha] at hfold
      simp at hfold
    | some f =>
      rw [ha] at hfold
      simp only [Option.map_some'] at hfold
      have h2 := ih (mutateH st o f) st2 hfold
      rw [h2, readH_mutateH_ne st o i f hio]

/-- C4: apply_sequence transforms a fresh clone only — for every store, every
live handle and every pass sequence, a successful run leaves the circuit at
the original handle untouched, so the metric snapshot of the original handle
is identical before and after the call. -/
theorem C4_sequencer_non_mutation (pRB pRR pCTM : Circuit → Circuit)
    (s : Store) (h : Nat) (seq : List String) (s2 : Store) (out : Nat)
    (hh : h < s.length)
    (hrun : apply_sequence (PASS_OBJS pRB pRR pCTM) s h seq = some (s2, out)) :
    compute_metrics (readH s2 h) = compute_metrics (readH s h) := by
  unfold apply_sequence at hrun
  rw [Option.map_eq_some'] at hrun
  obtain ⟨st2, hfold, heq⟩ := hrun
  have hne : h ≠ s.length := Nat.ne_of_lt hh
  have hframe := foldlM_mutate_frame (PASS_OBJS pRB pRR pCTM) s.length h hne seq
    (s ++ [readH s h]) st2 hfold
  have hst2 : st2 = s2 := congrArg Prod.fst heq
  subst hst2
  rw [hframe]
  have happ : readH (s ++ [readH s h]) h = readH s h := by
    unfold readH
    rw [List.getD_eq_getElem?_getD, List.getD_eq_getElem?_getD,
      List.getElem?_append_left hh]
  rw [happ]

/-- C4 witness: a concrete run on a one-circuit store, with a pass that
visibly rewrites the clone, leaves the metric snapshot of the original
handle unchanged. -/
theorem C4_sequencer_non_mutation_witness :
    0 < sampleStore.length ∧
    apply_sequence (PASS_OBJS samplePass samplePass samplePass) sampleStore 0 ["RB", "RR"] =
      some ([gatesOnlyCircuit, samplePassResult], 1) ∧
    compute_metrics (readH [gatesOnlyCircuit, samplePassResult] 0) =
      compute_metrics (readH sampleStore 0) :=
  ⟨by decide, by decide,
   C4_sequencer_non_mutation samplePass samplePass samplePass sampleStore 0 ["RB", "RR"]
     [gatesOnlyCircuit, samplePassResult] 1 (by decide) (by decide)⟩

/- ===== C9 ===== -/

/-- A dot-free character list has no last-dot split. -/
theorem splitLastDot_eq_none (l : List Char) (h : '.' ∉ l) : splitLastDot l = none := by
  induction l with
  | nil => rfl
  | cons c t ih =>
    simp only [List.mem_cons, not_or] at h
    unfold splitLastDot
    rw [ih h.2]
    have hc : ¬(c = '.') := fun hc => h.1 hc.symm
    rw [if_neg hc]

/-- Splitting at the last dot of pre ++ dot :: suf with a dot-free suffix
recovers pre and suf. -/
theorem splitLastDot_append (pre suf : List Char) (h : '.' ∉ suf) :
    splitLastDot (pre ++ '.' :: suf) = some (pre, suf) := by
  induction pre with
  | nil =>
    unfold splitLastDot
    rw [List.nil_append]
    show (match splitLastDot suf with
      | some (pre, suf) => some ('.' :: pre, suf)
      | none => if '.' = '.' then some ([], suf) else none) = some ([], suf)
    rw [splitLastDot_eq_none suf h]
    simp
  | cons c t ih =>
    rw [List.cons_append]
    unfold splitLastDot
    rw [ih]

/-- Computation of with_suffix on a name of the shape stem ++ ".tket.json":
the last suffix ".json" is replaced by the new one. -/
theorem with_suffix_tket_json (stem : String) (nsuf : String) :
    with_suffix (stem ++ ".tket.json") nsuf = stem ++ ".tket" ++ nsuf := by
  unfold with_suffix
  have hd : (stem ++ ".tket.json").data = (stem.data ++ ".tket".data) ++ '.' :: "json".data := by
    rw [String.data_append]
    simp
  rw [hd, splitLastDot_append _ _ (by decide)]
  have hpre : stem.data ++ ".tket".data ≠ [] := by
    simp
  dsimp only
  rw [if_pos ⟨hpre, by decide⟩]
  show String.mk (stem.data ++ ".tket".data) ++ nsuf = stem ++ ".tket" ++ nsuf
  have : String.mk (stem.data ++ ".tket".data) = stem ++ ".tket" := by
    apply String.ext
    rw [String.data_append]
  rw [this]

/-- The artifact path and its sidecar path always differ (their lengths
differ by the length of ".meta"). -/
theorem artifact_ne_meta (stem : String) :
    stem ++ ".tket.json" ≠ stem ++ ".tket" ++ ".meta.json" := by
  intro h
  have hlen := congrArg String.length h
  rw [String.length_append, String.length_append, String.length_append] at hlen
  have h1 : (".tket.json" : String).length = 10 := rfl
  have h2 : (".tket" : String).length = 5 := rfl
  have h3 : (".meta.json" : String).length = 10 := rfl
  omega

/-- C9: for every artifact path of the shape stem ++ ".tket.json", the
sidecar path the freezer writes (the path with its last suffix replaced by
".meta.json", i.e. stem ++ ".tket.meta.json") is exactly the first candidate
checked by discovery, and after a freeze that wrote, discovery resolves the
sidecar to exactly that path while the artifact itself is present under its
own path. -/
theorem C9_meta_sidecar_roundtrip (stem : String) (hashF : String → String)
    (fs : FS) (newJson metaJson : String) :
    with_suffix (stem ++ ".tket.json") ".meta.json" = stem ++ ".tket" ++ ".meta.json" ∧
    (meta_candidates (stem ++ ".tket.json")).head? =
      some (with_suffix (stem ++ ".tket.json") ".meta.json") ∧
    find_meta ((freeze_json hashF fs newJson (stem ++ ".tket.json") metaJson true false).1)
        (stem ++ ".tket.json") =
      some (with_suffix (stem ++ ".tket.json") ".meta.json") ∧
    (freeze_json hashF fs newJson (stem ++ ".tket.json") metaJson true false).1
        (stem ++ ".tket.json") = some newJson := by
  have hfz : (freeze_json hashF fs newJson (stem ++ ".tket.json") metaJson true false).1 =
      writeBoth fs (stem ++ ".tket.json") newJson metaJson := by
    unfold freeze_json
    simp
  refine ⟨with_suffix_tket_json stem ".meta.json", rfl, ?_, ?_⟩
  · rw [hfz]
    unfold find_meta meta_candidates
    rw [List.find?_cons]
    have hw : (writeBoth fs (stem ++ ".tket.json") newJson metaJson
        (with_suffix (stem ++ ".tket.json") ".meta.json")).isSome = true := by
      unfold writeBoth
      rw [if_pos rfl]
      rfl
    rw [hw]
  · rw [hfz]
    unfold writeBoth
    rw [if_neg, if_pos rfl]
    rw [with_suffix_tket_json stem ".meta.json"]
    exact artifact_ne_meta stem

/- ===== C7 ===== -/

/-- Inserting an entry whose count is n keeps it ahead of every other entry
of count n already present (the insertion only passes entries of strictly
larger count). -/
theorem filter_orderedInsert_eq (a : String × Nat) (n : Nat) (ha : a.2 = n) :
    ∀ s : List (String × Nat),
      (List.orderedInsert countGE a s).filter (fun x => x.2 == n) =
        a :: s.filter (fun x => x.2 == n) := by
  intro s
  induction s with
  | nil => simp [ha]
  | cons b t ih =>
    by_cases hab : countGE a b
    · rw [List.orderedInsert_of_le countGE t hab]
      simp [ha]
    · have hbn : ¬(b.2 = n) := by
        unfold countGE at hab
        omega
      simp only [List.orderedInsert, if_neg hab]
      simp [List.filter_cons, hbn, ih]

/-- Inserting an entry of a different count leaves the count-n entries and
their order untouched. -/
theorem filter_orderedInsert_ne (a : String × Nat) (n : Nat) (ha : ¬(a.2 = n)) :
    ∀ s : List (String × Nat),
      (List.orderedInsert countGE a s).filter (fun x => x.2 == n) =
        s.filter (fun x => x.2 == n) := by
  intro s
  induction s with
  | nil => simp [ha]
  | cons b t ih =>
    by_cases hab : countGE a b
    · rw [List.orderedInsert_of_le countGE t hab]
      simp [ha]
    · simp only [List.orderedInsert, if_neg hab]
      rw [List.filter_cons, List.filter_cons]
      rw [ih]

/-- Stability of the most_common sort: for each fixed count n, the entries
of count n appear in the sorted list in exactly their original (hence
first-encountered) order. -/
theorem insertionSort_filter_stable (n : Nat) :
    ∀ l : List (String × Nat),
      (List.insertionSort countGE l).filter (fun x => x.2 == n) =
        l.filter (fun x => x.2 == n) := by
  intro l
  induction l with
  | nil => rfl
  | cons a t ih =>
    show (List.orderedInsert countGE a (List.insertionSort countGE t)).filter
        (fun x => x.2 == n) = (a :: t).filter (fun x => x.2 == n)
    by_cases ha : a.2 = n
    · rw [filter_orderedInsert_eq a n ha, ih, List.filter_cons]
      simp [ha]
    · rw [filter_orderedInsert_ne a n ha, ih, List.filter_cons]
      simp [ha]

/-- C7: top_ops is the stable-descending sort (by count) of the name
histogram truncated to the first 8 entries; its length never exceeds 8; the
sorted histogram is sorted by weakly decreasing count; equal counts appear
in first-encountered (histogram) order; and every reported entry is a
histogram entry. -/
theorem C7_top_ops_truncation (c : Circuit) :
    (compute_metrics c).top_ops = (List.insertionSort countGE (op_name_counts c)).take 8 ∧
    (compute_metrics c).top_ops.length ≤ 8 ∧
    List.Sorted countGE (List.insertionSort countGE (op_name_counts c)) ∧
    (∀ n : Nat, (List.insertionSort countGE (op_name_counts c)).filter (fun x => x.2 == n) =
      (op_name_counts c).filter (fun x => x.2 == n)) ∧
    (∀ x ∈ (compute_metrics c).top_ops, x ∈ op_name_counts c) := by
  refine ⟨rfl, List.length_take_le 8 _, List.sorted_insertionSort countGE _,
    fun n => insertionSort_filter_stable n _, ?_⟩
  intro x hx
  exact (List.mem_insertionSort countGE).mp (List.mem_of_mem_take hx)

/-- C7 witness: on a concrete circuit the histogram, its stable truncation
and the membership facts evaluate as stated. -/
theorem C7_top_ops_truncation_witness :
    (compute_metrics sampleCircuit).top_ops = [("h", 2), ("cx", 1), ("barrier", 1)] ∧
    (compute_metrics sampleCircuit).top_ops.length ≤ 8 ∧
    ("cx", 1) ∈ op_name_counts sampleCircuit :=
  ⟨by decide, (C7_top_ops_truncation sampleCircuit).2.1,
   (C7_top_ops_truncation sampleCircuit).2.2.2.2 ("cx", 1) (by decide)⟩

end PairwiseProto
